import Mathlib

/-!
Shallow embedding of `src/lorenz_attractor.py` (the Lorenz chaotic system
visualizer).  Real-number arithmetic of the Python floats is idealized as
exact rational arithmetic (`ℚ`).  The third-party dependency
`scipy.integrate.solve_ivp` is modelled parametrically: a `SolveIvp` value
produces, from the vector field, the time span, the initial state and the
evaluation grid, an `OdeResult` (mirroring scipy's return object with its
`.y.T` rows and `.success` flag).  Documented guarantees of `solve_ivp` that
the repository relies on are stated as explicit contract predicates
(`SolverTruncates`, `SolverPreservesLength`, `SolverExactAtStart`) and taken
as hypotheses where a theorem needs them.
-/

/-- A phase-space state `(x, y, z)`, as the Python triples. -/
abbrev State := ℚ × ℚ × ℚ

/-- Embedding of `lorenz_system(t, state, sigma, rho, beta)`
(src/lorenz_attractor.py lines 4-22): unpacks the state and returns
`[sigma*(y-x), x*(rho-z)-y, x*y-beta*z]`.  The time argument `t` is
accepted and unused, exactly as in the source. -/
def lorenz_system (t : ℚ) (state : State) (sigma : ℚ) (rho : ℚ) (beta : ℚ) : State :=
  match t, state with
  | _, (x, y, z) =>
    let dxdt := sigma * (y - x)
    let dydt := x * (rho - z) - y
    let dzdt := x * y - beta * z
    (dxdt, dydt, dzdt)

/-- Python default parameter values `sigma=10.0, rho=28.0, beta=8/3`. -/
def sigma_default : ℚ := 10

/-- Python default `rho=28.0`. -/
def rho_default : ℚ := 28

/-- Python default `beta=8/3`. -/
def beta_default : ℚ := 8 / 3

/-- `lorenz_system` called with all defaulted parameters, as the call
`lorenz_system(t, state)` made through `solve_ivp` in the source. -/
def lorenz_default (t : ℚ) (s : State) : State :=
  lorenz_system t s sigma_default rho_default beta_default

/-- Embedding of `np.arange(start, stop, step)`: `none` models the
`ZeroDivisionError` numpy raises for `step = 0`; otherwise the list
`start, start+step, …` of length `max(ceil((stop-start)/step), 0)`,
numpy's documented length rule. -/
def np_arange (start stop step : ℚ) : Option (List ℚ) :=
  if step = 0 then none
  else some ((List.range (Int.toNat ⌈(stop - start) / step⌉)).map
    (fun (i : ℕ) => start + (i : ℚ) * step))

/-- Mirror of the object `solve_ivp(...)` returns: the reported times
(`solution.t`), the state rows (`solution.y.T`) and the `success` flag. -/
structure OdeResult where
  ts : List ℚ
  ys : List State
  success : Bool

/-- A model of `scipy.integrate.solve_ivp` restricted to the call shape the
repository uses: arguments are the right-hand-side field `fun`, the span
endpoints `t_span = (t0, tf)`, the initial state `y0` and the grid
`t_eval`. -/
structure SolveIvp where
  run : (ℚ → State → State) → ℚ → ℚ → State → List ℚ → OdeResult

/-- `solve_ivp` contract: it reports values only at requested `t_eval`
points, so the returned rows never outnumber the grid (on failure the rows
are truncated at the point integration stopped). -/
def SolverTruncates (S : SolveIvp) : Prop :=
  ∀ f t0 tf y0 te, ((S.run f t0 tf y0 te).ys).length ≤ te.length

/-- `solve_ivp` contract: on success, one row is reported per `t_eval`
point. -/
def SolverPreservesLength (S : SolveIvp) : Prop :=
  ∀ f t0 tf y0 te, (S.run f t0 tf y0 te).success = true →
    ((S.run f t0 tf y0 te).ys).length = te.length

/-- `solve_ivp` contract: on success, if the first grid point is the span's
start `t0`, the first reported row is exactly the initial state `y0`. -/
def SolverExactAtStart (S : SolveIvp) : Prop :=
  ∀ f t0 tf y0 te, (S.run f t0 tf y0 te).success = true →
    te.head? = some t0 →
    ((S.run f t0 tf y0 te).ys).head? = some y0

/-- Embedding of `ode_solution_points(function, state0, time, dt)`
(src/lorenz_attractor.py lines 25-41): builds `t_eval = np.arange(0, time,
dt)`, calls `solve_ivp(fun=function, t_span=(0, time), y0=state0,
t_eval=t_eval)` and returns `solution.y.T` — unconditionally, without
inspecting `solution.success`.  The solver `S` stands for the imported
`solve_ivp`; `none` is the propagated numpy exception from `dt = 0`. -/
def ode_solution_points (S : SolveIvp) (function : ℚ → State → State)
    (state0 : State) (time : ℚ) (dt : ℚ) : Option (List State) :=
  (np_arange 0 time dt).map (fun te => (S.run function 0 time state0 te).ys)

/-- Python default `dt=0.001` of `ode_solution_points`. -/
def dt_default : ℚ := 1 / 1000

/-- `epsilon = 0.001` (src/lorenz_attractor.py line 93). -/
def epsilon : ℚ := 1 / 1000

/-- `evol_time = 30` (src/lorenz_attractor.py line 94). -/
def evol_time : ℚ := 30

/-- `n_points = 6` (src/lorenz_attractor.py line 95). -/
def n_points : ℕ := 6

/-- Embedding of the clustered initial states
`[[10, 10, 10 + n * epsilon] for n in range(n_points)]`
(src/lorenz_attractor.py lines 98-100). -/
def states : List State :=
  (List.range n_points).map (fun (n : ℕ) => (10, 10, 10 + (n : ℚ) * epsilon))

/-- Model of `np.random.uniform(lo, hi)`: a draw from the half-open
interval `[lo, hi)`, obtained from a unit draw `u ∈ [0, 1)` as
`lo + (hi - lo) * u`. -/
def np_random_uniform (lo hi u : ℚ) : ℚ := lo + (hi - lo) * u

/-- Embedding of the randomized initial states
`[[np.random.uniform(-30, 30), np.random.uniform(-30, 30),
np.random.uniform(10, 40)] for _ in range(n_points)]`
(src/lorenz_attractor.py lines 102-106).  The process-wide random stream is
made explicit as `u : ℕ → ℚ`, consumed one unit draw per coordinate in
generation order. -/
def states_random (u : ℕ → ℚ) : List State :=
  (List.range n_points).map (fun n =>
    (np_random_uniform (-30) 30 (u (3 * n)),
     np_random_uniform (-30) 30 (u (3 * n + 1)),
     np_random_uniform 10 40 (u (3 * n + 2))))

/-- Boolean check that a state lies in the randomized policy's per-axis
ranges: `x, y ∈ [-30, 30]`, `z ∈ [10, 40]`. -/
def coordInRange (s : State) : Bool :=
  decide (-30 ≤ s.1 ∧ s.1 ≤ 30 ∧ -30 ≤ s.2.1 ∧ s.2.1 ≤ 30 ∧
    10 ≤ s.2.2 ∧ s.2.2 ≤ 40)

/-- The constant unit-draw stream `1/2`, a concrete admissible random
stream. -/
def halfSeq : ℕ → ℚ := fun _ => 1 / 2

/-- A concrete solver that reports the exact solution `sol` at every
requested grid point (and the initial state at the span start), always
succeeding: the ideal behavior of `solve_ivp` when its error control
converges. -/
def exactSolve (sol : ℚ → State) : SolveIvp where
  run := fun _f t0 _tf y0 te =>
    { ts := te
      ys := te.map (fun t => if t = t0 then y0 else sol t)
      success := true }

/-- A concrete solver that gives up after the first grid point and reports
`success = false` with the rows truncated there: the shape of a scipy
non-convergence outcome. -/
def failingSolver : SolveIvp where
  run := fun _f _t0 _tf y0 te =>
    { ts := te.take 1
      ys := (te.take 1).map (fun _ => y0)
      success := false }

/-- The constant exact solution used for concrete instantiations. -/
def constSol : ℚ → State := fun _ => (10, 10, 10)

/-- Unfolding lemma for `lorenz_system` on an explicit triple. -/
theorem lorenz_system_def (t x y z sigma rho beta : ℚ) :
    lorenz_system t (x, y, z) sigma rho beta =
      (sigma * (y - x), x * (rho - z) - y, x * y - beta * z) := rfl

/-- Claim C3: for every time `t`, state `(x, y, z)` and parameters `sigma,
rho, beta` (defaults 10, 28, 8/3), `lorenz_system` returns exactly the
derivative triple `(sigma*(y-x), x*(rho-z)-y, x*y-beta*z)`. -/
theorem C3_lorenz_field_formula (t x y z sigma rho beta : ℚ) :
    lorenz_system t (x, y, z) sigma rho beta =
      (sigma * (y - x), x * (rho - z) - y, x * y - beta * z) ∧
    lorenz_default t (x, y, z) = lorenz_system t (x, y, z) 10 28 (8 / 3) ∧
    sigma_default = 10 ∧ rho_default = 28 ∧ beta_default = 8 / 3 :=
  ⟨rfl, rfl, rfl, rfl, rfl⟩

/-- Claim C9: the vector field is time-invariant — the same state and
parameters give the same derivative at any two times — and total (it is a
Lean function, defined on all rational inputs, with no effects). -/
theorem C9_time_invariant_pure (t1 t2 : ℚ) (s : State) (sigma rho beta : ℚ) :
    lorenz_system t1 s sigma rho beta = lorenz_system t2 s sigma rho beta := by
  obtain ⟨x, y, z⟩ := s
  rfl

/-- Claim C5, counterexample: the state `(1, 1, 3/8)` satisfies `x = y` and
`z = x*y/beta` for the default `beta = 8/3`, yet the field there is not
`(0, 0, 0)` (its second component is `1*(28 - 3/8) - 1 = 205/8`), so the
claim's condition does not characterize equilibria. -/
theorem C5_counterexample :
    (1 : ℚ) = 1 ∧ (3 / 8 : ℚ) = 1 * 1 / beta_default ∧
    lorenz_system 0 (1, 1, 3 / 8) sigma_default rho_default beta_default ≠
      (0, 0, 0) := by
  refine ⟨rfl, by norm_num [beta_default], ?_⟩
  rw [lorenz_system_def]
  norm_num [sigma_default, rho_default, beta_default, Prod.ext_iff]

/-- Claim C5, amended: a state with `x = y` and `z = x*y/beta` is an
equilibrium of the field provided additionally `x = 0`, or `beta ≠ 0` and
`z = rho - 1` (the genuine fixed-point condition the spec's own example
`x = y = sqrt(beta*(rho-1))`, `z = rho-1` satisfies); there the derivative
is exactly `(0, 0, 0)`. -/
theorem C5_equilibrium (t sigma rho beta x y z : ℚ)
    (hxy : x = y) (hz : z = x * y / beta)
    (hfix : x = 0 ∨ (beta ≠ 0 ∧ z = rho - 1)) :
    lorenz_system t (x, y, z) sigma rho beta = (0, 0, 0) := by
  rw [lorenz_system_def, Prod.mk.injEq, Prod.mk.injEq]
  rcases hfix with hx0 | ⟨hb, hzr⟩
  · have hy0 : y = 0 := hxy ▸ hx0
    have hz0 : z = 0 := by rw [hz, hx0]; simp
    rw [hx0, hy0, hz0]
    refine ⟨by ring, by ring, by ring⟩
  · have hxx : x * y = beta * z := by
      rw [hz]
      field_simp
    refine ⟨?_, ?_, ?_⟩
    · rw [hxy]; ring
    · rw [hzr, ← hxy]; ring
    · rw [hxx, hzr]; ring

/-- Witness for C5_equilibrium at the origin, an equilibrium for the
default parameters. -/
theorem C5_equilibrium_witness :
    lorenz_system 0 (0, 0, 0) 10 28 (8 / 3) = (0, 0, 0) :=
  C5_equilibrium 0 10 28 (8 / 3) 0 0 0 rfl (by norm_num) (Or.inl rfl)

/-- Claim C6: the clustered policy produces exactly six states, the n-th
being the base state `(10, 10, 10)` with its z coordinate offset by
`n * epsilon`, `epsilon = 0.001`, and x and y equal to 10 throughout. -/
theorem C6_clustered_states :
    states = [(10, 10, 10 + (0 : ℚ) * epsilon), (10, 10, 10 + (1 : ℚ) * epsilon),
      (10, 10, 10 + (2 : ℚ) * epsilon), (10, 10, 10 + (3 : ℚ) * epsilon),
      (10, 10, 10 + (4 : ℚ) * epsilon), (10, 10, 10 + (5 : ℚ) * epsilon)] ∧
    states.length = n_points ∧ n_points = 6 ∧ epsilon = 1 / 1000 ∧
    states.all (fun s => decide (s.1 = 10) && decide (s.2.1 = 10)) = true := by
  refine ⟨?_, by unfold states; rw [List.length_map, List.length_range], rfl, rfl, ?_⟩
  · norm_num [states, n_points, epsilon, List.range_succ]
  · norm_num [states, n_points, List.range_succ, List.all]

/-- Claim C7: every state of the randomized policy has each coordinate
produced by its own independent uniform draw over the per-axis range, and
hence lies within the bounds: `x, y ∈ [-30, 30]`, `z ∈ [10, 40]`, for any
admissible unit-draw stream (all draws in `[0, 1)`). -/
theorem C7_randomized_bounds (u : ℕ → ℚ) (hu : ∀ i, 0 ≤ u i ∧ u i < 1) :
    (states_random u).all coordInRange = true := by
  rw [List.all_eq_true]
  intro s hs
  simp only [states_random, List.mem_map, List.mem_range] at hs
  obtain ⟨n, -, rfl⟩ := hs
  simp only [coordInRange, np_random_uniform, decide_eq_true_eq]
  obtain ⟨h1, h2⟩ := hu (3 * n)
  obtain ⟨h3, h4⟩ := hu (3 * n + 1)
  obtain ⟨h5, h6⟩ := hu (3 * n + 2)
  refine ⟨by linarith, by linarith, by linarith, by linarith, by linarith, by linarith⟩

/-- Witness for C7_randomized_bounds with the constant stream 1/2. -/
theorem C7_randomized_bounds_witness :
    (states_random halfSeq).all coordInRange = true :=
  C7_randomized_bounds halfSeq
    (fun _ => ⟨by norm_num [halfSeq], by norm_num [halfSeq]⟩)

/-- Closed form of `np.arange(0, T, dt)` for a nonzero step. -/
theorem np_arange_zero_start (T dt : ℚ) (hdt : dt ≠ 0) :
    np_arange 0 T dt =
      some ((List.range (Int.toNat ⌈T / dt⌉)).map (fun (i : ℕ) => (i : ℚ) * dt)) := by
  simp [np_arange, hdt]

/-- The exact solver reports no more rows than grid points. -/
theorem exactSolve_truncates (sol : ℚ → State) : SolverTruncates (exactSolve sol) := by
  intro f t0 tf y0 te
  simp [SolverTruncates, exactSolve]

/-- The exact solver reports one row per grid point. -/
theorem exactSolve_preservesLength (sol : ℚ → State) :
    SolverPreservesLength (exactSolve sol) := by
  intro f t0 tf y0 te h
  simp [exactSolve]

/-- The exact solver reports the initial state at the span start. -/
theorem exactSolve_exactAtStart (sol : ℚ → State) :
    SolverExactAtStart (exactSolve sol) := by
  intro f t0 tf y0 te hs hh
  cases te with
  | nil => simp at hh
  | cons a l =>
    simp only [List.head?_cons, Option.some.injEq] at hh
    simp [exactSolve, hh]

/-- Claim C1, amended: `ode_solution_points` performs no input validation
and never reports an InvalidDuration or InvalidStep failure result.  With
duration `T ≤ 0` and step `dt > 0` it returns the empty trajectory as an
ordinary success; with `dt = 0` the call dies with numpy's
`ZeroDivisionError` raised by `np.arange` (not an InvalidStep result); and
with `0 < T < dt` a converging run returns an ordinary one-point trajectory
holding the initial state. -/
theorem C1_no_validation (S : SolveIvp) (f : ℚ → State → State) (y0 : State)
    (T dt : ℚ) (hS : SolverTruncates S) (hL : SolverPreservesLength S)
    (hE : SolverExactAtStart S) :
    (T ≤ 0 → 0 < dt → ode_solution_points S f y0 T dt = some []) ∧
    (dt = 0 → ode_solution_points S f y0 T dt = none) ∧
    (0 < T → T < dt → ∀ te, np_arange 0 T dt = some te →
      (S.run f 0 T y0 te).success = true →
      ode_solution_points S f y0 T dt = some [y0]) := by
  refine ⟨?_, ?_, ?_⟩
  · intro hT hdt
    have hgrid := np_arange_zero_start T dt hdt.ne'
    have hceil : Int.toNat ⌈T / dt⌉ = 0 := by
      rw [Int.toNat_eq_zero, Int.ceil_le]
      push_cast
      exact div_nonpos_iff.mpr (Or.inr ⟨hT, hdt.le⟩)
    rw [hceil] at hgrid
    simp only [List.range_zero, List.map_nil] at hgrid
    have h0 := hS f 0 T y0 []
    simp only [List.length_nil, Nat.le_zero, List.length_eq_zero] at h0
    simp only [ode_solution_points, hgrid, Option.map_some', h0]
  · intro h
    simp [ode_solution_points, np_arange, h]
  · intro hT hdt te hte hs
    have hdt0 : 0 < dt := hT.trans hdt
    have h1 : ⌈T / dt⌉ = 1 := by
      rw [Int.ceil_eq_iff]
      push_cast
      constructor
      · simpa using div_pos hT hdt0
      · rw [div_le_one hdt0]
        exact hdt.le
    have hte' := hte
    rw [np_arange_zero_start T dt hdt0.ne', h1] at hte'
    simp only [Int.toNat_one, List.range_succ, List.range_zero, List.nil_append,
      List.map_cons, List.map_nil, Nat.cast_zero, zero_mul, Option.some.injEq] at hte'
    have hteq : te = [0] := hte'.symm
    subst hteq
    have hlen : ((S.run f 0 T y0 [0]).ys).length = 1 := by
      simpa using hL f 0 T y0 [0] hs
    have hhead : ((S.run f 0 T y0 [0]).ys).head? = some y0 :=
      hE f 0 T y0 [0] hs (by simp)
    obtain ⟨a, ha⟩ := List.length_eq_one.mp hlen
    rw [ha] at hhead
    simp only [List.head?_cons, Option.some.injEq] at hhead
    simp only [ode_solution_points, hte, Option.map_some', ha, hhead]

/-- Witness for C1_no_validation on concrete calls: T = -1 yields the empty
trajectory, dt = 0 yields the propagated exception, and T = 1 with dt = 2
yields the one-point trajectory. -/
theorem C1_no_validation_witness :
    ode_solution_points (exactSolve constSol) lorenz_default (10, 10, 10) (-1) (1 / 1000) =
      some [] ∧
    ode_solution_points (exactSolve constSol) lorenz_default (10, 10, 10) 1 0 = none ∧
    ode_solution_points (exactSolve constSol) lorenz_default (10, 10, 10) 1 2 =
      some [(10, 10, 10)] := by
  have H := fun T dt => C1_no_validation (exactSolve constSol) lorenz_default
    (10, 10, 10) T dt (exactSolve_truncates constSol)
    (exactSolve_preservesLength constSol) (exactSolve_exactAtStart constSol)
  have hc : ⌈(1 : ℚ) / 2⌉ = 1 := by
    rw [Int.ceil_eq_iff]
    norm_num
  have hte : np_arange 0 1 2 = some [0] := by
    rw [np_arange_zero_start 1 2 (by norm_num), hc]
    simp [List.range_succ]
  exact ⟨(H (-1) (1 / 1000)).1 (by norm_num) (by norm_num),
    (H 1 0).2.1 rfl,
    (H 1 2).2.2 (by norm_num) (by norm_num) [0] hte rfl⟩

/-- Counterexample to C1 as stated: the call with duration T = 1 and step
dt = 2 > T does not fail with InvalidStep — it returns an ordinary
one-point trajectory — and the call with T = -1 ≤ 0 does not fail with
InvalidDuration — it returns the empty trajectory. -/
theorem C1_counterexample :
    (0 : ℚ) < 1 ∧ (1 : ℚ) < 2 ∧
    ode_solution_points (exactSolve constSol) lorenz_default (1, 2, 3) 1 2 =
      some [(1, 2, 3)] ∧
    ode_solution_points (exactSolve constSol) lorenz_default (1, 2, 3) (-1) (1 / 1000) =
      some [] := by
  have hc : ⌈(1 : ℚ) / 2⌉ = 1 := by
    rw [Int.ceil_eq_iff]
    norm_num
  have hc2 : ⌈(-1 : ℚ) / (1 / 1000)⌉ = -1000 := by
    rw [Int.ceil_eq_iff]
    norm_num
  refine ⟨by norm_num, by norm_num, ?_, ?_⟩
  · simp only [ode_solution_points, np_arange_zero_start 1 2 (by norm_num), hc,
      Option.map_some']
    simp [exactSolve, List.range_succ]
  · simp only [ode_solution_points, np_arange_zero_start (-1) (1 / 1000) (by norm_num),
      hc2, Option.map_some']
    simp [exactSolve]

/-- Claim C2, amended: for a valid duration `T > 0` and step `0 < dt ≤ T`, a
converging run returns a trajectory of length exactly ceil(T/dt) — the
number of grid times `0, dt, 2dt, …` strictly below `T` — which equals
floor(T/dt) exactly when `dt` divides `T`; the grid times are strictly
increasing and lie in `[0, T)`, and every ensemble member sharing `(T, dt)`
gets this same length. -/
theorem C2_trajectory_length (S : SolveIvp) (f : ℚ → State → State)
    (y0 y1 : State) (T dt : ℚ) (hL : SolverPreservesLength S)
    (hdt : 0 < dt) (hdT : dt ≤ T) (te : List ℚ)
    (hte : np_arange 0 T dt = some te)
    (h0 : (S.run f 0 T y0 te).success = true)
    (h1 : (S.run f 0 T y1 te).success = true) :
    ode_solution_points S f y0 T dt = some ((S.run f 0 T y0 te).ys) ∧
    ((S.run f 0 T y0 te).ys).length = Int.toNat ⌈T / dt⌉ ∧
    te = (List.range (Int.toNat ⌈T / dt⌉)).map (fun (i : ℕ) => (i : ℚ) * dt) ∧
    List.Pairwise (· < ·) te ∧
    (∀ x ∈ te, 0 ≤ x ∧ x < T) ∧
    ((S.run f 0 T y1 te).ys).length = ((S.run f 0 T y0 te).ys).length := by
  have hte' := hte
  rw [np_arange_zero_start T dt hdt.ne'] at hte'
  have hteq : te = (List.range (Int.toNat ⌈T / dt⌉)).map (fun (i : ℕ) => (i : ℚ) * dt) :=
    (Option.some.inj hte').symm
  have hlen : te.length = Int.toNat ⌈T / dt⌉ := by
    rw [hteq, List.length_map, List.length_range]
  refine ⟨?_, ?_, hteq, ?_, ?_, ?_⟩
  · simp only [ode_solution_points, hte, Option.map_some']
  · rw [hL f 0 T y0 te h0, hlen]
  · rw [hteq]
    exact (List.pairwise_lt_range _).map _
      (fun a b hab => by
        exact mul_lt_mul_of_pos_right (by exact_mod_cast hab) hdt)
  · intro x hx
    rw [hteq] at hx
    obtain ⟨i, hi, rfl⟩ := List.mem_map.mp hx
    rw [List.mem_range] at hi
    constructor
    · positivity
    · have hz : (i : ℤ) < ⌈T / dt⌉ := Int.lt_toNat.mp hi
      have hq : ((i : ℚ)) + 1 ≤ (⌈T / dt⌉ : ℚ) := by
        exact_mod_cast Int.add_one_le_iff.mpr hz
      have hlt : (i : ℚ) < T / dt := by
        have := Int.ceil_lt_add_one (T / dt)
        linarith
      rwa [lt_div_iff₀ hdt] at hlt
  · rw [hL f 0 T y1 te h1, hL f 0 T y0 te h0]

/-- Witness for C2_trajectory_length: T = 1, dt = 1/2 gives exactly
ceil(1/(1/2)) = 2 points. -/
theorem C2_trajectory_length_witness :
    (ode_solution_points (exactSolve constSol) lorenz_default (10, 10, 10) 1 (1 / 2)).map
      List.length = some 2 := by
  have hc : ⌈(1 : ℚ) / (1 / 2)⌉ = 2 := by
    rw [Int.ceil_eq_iff]
    norm_num
  have hte : np_arange 0 1 (1 / 2) = some [0, 1 / 2] := by
    rw [np_arange_zero_start 1 (1 / 2) (by norm_num), hc]
    norm_num [show Int.toNat 2 = 2 from rfl, List.range_succ]
  obtain ⟨hA, hB, -, -, -, -⟩ := C2_trajectory_length (exactSolve constSol)
    lorenz_default (10, 10, 10) (10, 10, 10) 1 (1 / 2)
    (exactSolve_preservesLength constSol) (by norm_num) (by norm_num)
    [0, 1 / 2] hte rfl rfl
  rw [hA, Option.map_some', hB, hc]
  rfl

/-- Counterexample to C2 as stated: with T = 1 and dt = 3/10 the returned
trajectory has 4 points (one per grid time 0, 0.3, 0.6, 0.9), whereas
floor(T/dt) = 3. -/
theorem C2_counterexample :
    (0 : ℚ) < 3 / 10 ∧ (3 / 10 : ℚ) ≤ 1 ∧
    (ode_solution_points (exactSolve constSol) lorenz_default (10, 10, 10) 1 (3 / 10)).map
      List.length = some 4 ∧
    Int.toNat ⌊(1 : ℚ) / (3 / 10)⌋ = 3 := by
  have hc : ⌈(1 : ℚ) / (3 / 10)⌉ = 4 := by
    rw [Int.ceil_eq_iff]
    norm_num
  have hf : ⌊(1 : ℚ) / (3 / 10)⌋ = 3 := by
    rw [Int.floor_eq_iff]
    norm_num
  refine ⟨by norm_num, by norm_num, ?_, by rw [hf]; rfl⟩
  simp only [ode_solution_points, np_arange_zero_start 1 (3 / 10) (by norm_num), hc,
    Option.map_some']
  simp [exactSolve]

/-- Claim C4: for a valid call on which the solver converges, the first grid
time is 0, the first trajectory point is exactly the initial state, and in
particular each of its coordinates differs from the initial state's by less
than 1e-6. -/
theorem C4_first_point (S : SolveIvp) (f : ℚ → State → State) (y0 : State)
    (T dt : ℚ) (hE : SolverExactAtStart S) (hdt : 0 < dt) (hT : 0 < T)
    (te : List ℚ) (hte : np_arange 0 T dt = some te)
    (hs : (S.run f 0 T y0 te).success = true) :
    te.head? = some 0 ∧
    ode_solution_points S f y0 T dt = some ((S.run f 0 T y0 te).ys) ∧
    ((S.run f 0 T y0 te).ys).head? = some y0 ∧
    (ode_solution_points S f y0 T dt).map List.head? = some (some y0) ∧
    (∀ p, ((S.run f 0 T y0 te).ys).head? = some p →
      |p.1 - y0.1| < 1 / 1000000 ∧ |p.2.1 - y0.2.1| < 1 / 1000000 ∧
      |p.2.2 - y0.2.2| < 1 / 1000000) := by
  have hte' := hte
  rw [np_arange_zero_start T dt hdt.ne'] at hte'
  have hteq : te = (List.range (Int.toNat ⌈T / dt⌉)).map (fun (i : ℕ) => (i : ℚ) * dt) :=
    (Option.some.inj hte').symm
  have hm : 0 < Int.toNat ⌈T / dt⌉ :=
    Int.lt_toNat.mpr (Int.ceil_pos.mpr (div_pos hT hdt))
  have hhead : te.head? = some 0 := by
    rw [hteq, List.head?_map, List.head?_eq_getElem?, List.getElem?_range hm]
    simp
  have hys : ((S.run f 0 T y0 te).ys).head? = some y0 := hE f 0 T y0 te hs hhead
  have hode : ode_solution_points S f y0 T dt = some ((S.run f 0 T y0 te).ys) := by
    simp only [ode_solution_points, hte, Option.map_some']
  refine ⟨hhead, hode, hys, ?_, ?_⟩
  · rw [hode, Option.map_some', hys]
  · intro p hp
    rw [hys] at hp
    obtain rfl : p = y0 := (Option.some.inj hp).symm ▸ rfl
    norm_num

/-- Witness for C4_first_point: the first point of the T = 1, dt = 1/2
trajectory from (10, 10, 10) is (10, 10, 10). -/
theorem C4_first_point_witness :
    (ode_solution_points (exactSolve constSol) lorenz_default (10, 10, 10) 1 (1 / 2)).map
      List.head? = some (some ((10 : ℚ), (10 : ℚ), (10 : ℚ))) := by
  have hc : ⌈(1 : ℚ) / (1 / 2)⌉ = 2 := by
    rw [Int.ceil_eq_iff]
    norm_num
  have hte : np_arange 0 1 (1 / 2) = some [0, 1 / 2] := by
    rw [np_arange_zero_start 1 (1 / 2) (by norm_num), hc]
    norm_num [show Int.toNat 2 = 2 from rfl, List.range_succ]
  exact (C4_first_point (exactSolve constSol) lorenz_default (10, 10, 10) 1 (1 / 2)
    (exactSolve_exactAtStart constSol) (by norm_num) (by norm_num)
    [0, 1 / 2] hte rfl).2.2.2.1

/-- Claim C8, amended: the sampler never inspects `solution.success`; its
return value is `solution.y.T` whatever the solver reports, so a
non-convergent run yields a silently returned (possibly truncated)
trajectory rather than a surfaced NonConvergence failure. -/
theorem C8_silent_truncation (S : SolveIvp) (f : ℚ → State → State)
    (y0 : State) (T dt : ℚ) (te : List ℚ)
    (hte : np_arange 0 T dt = some te) :
    ode_solution_points S f y0 T dt = some ((S.run f 0 T y0 te).ys) ∧
    ode_solution_points failingSolver f y0 T dt =
      some ((failingSolver.run f 0 T y0 te).ys) ∧
    (failingSolver.run f 0 T y0 te).success = false := by
  refine ⟨?_, ?_, rfl⟩ <;> simp only [ode_solution_points, hte, Option.map_some']

/-- Witness for C8_silent_truncation: the failing solver's T = 1, dt = 1/2
call still returns a (truncated, one-point) trajectory. -/
theorem C8_silent_truncation_witness :
    ode_solution_points failingSolver lorenz_default (10, 10, 10) 1 (1 / 2) =
      some [(10, 10, 10)] := by
  have hc : ⌈(1 : ℚ) / (1 / 2)⌉ = 2 := by
    rw [Int.ceil_eq_iff]
    norm_num
  have hte : np_arange 0 1 (1 / 2) = some [0, 1 / 2] := by
    rw [np_arange_zero_start 1 (1 / 2) (by norm_num), hc]
    norm_num [show Int.toNat 2 = 2 from rfl, List.range_succ]
  have h := (C8_silent_truncation failingSolver lorenz_default (10, 10, 10) 1 (1 / 2)
    [0, 1 / 2] hte).2.1
  rw [h]
  simp [failingSolver]

/-- Counterexample to C8 as stated: on a run whose solver reports
`success = false` (non-convergence), the sampler still returns an ordinary
trajectory — the rows truncated at the first grid point — instead of
surfacing a failure. -/
theorem C8_counterexample :
    (failingSolver.run lorenz_default 0 1 (1, 2, 3) [0, 1 / 2]).success = false ∧
    np_arange 0 1 (1 / 2) = some [0, 1 / 2] ∧
    ode_solution_points failingSolver lorenz_default (1, 2, 3) 1 (1 / 2) =
      some [(1, 2, 3)] := by
  have hc : ⌈(1 : ℚ) / (1 / 2)⌉ = 2 := by
    rw [Int.ceil_eq_iff]
    norm_num
  have hte : np_arange 0 1 (1 / 2) = some [0, 1 / 2] := by
    rw [np_arange_zero_start 1 (1 / 2) (by norm_num), hc]
    norm_num [show Int.toNat 2 = 2 from rfl, List.range_succ]
  refine ⟨rfl, hte, ?_⟩
  simp only [ode_solution_points, hte, Option.map_some']
  simp [failingSolver]

/-- Embedding of the trajectory-computing slice of
`LorenzAttractor.construct` (src/lorenz_attractor.py lines 93-121): both
initial-state lists are generated (`states` and `states_random`, the latter
consuming the random stream `u`), then the loop
`for state, color in zip(states, colors)` invokes
`ode_solution_points(lorenz_system, state, time=evol_time)` (default
`dt=0.001`) for each clustered state, pairing the resulting points with the
state's color.  The color list (from the external `color_gradient`) is a
parameter. -/
def construct_curves {C : Type} (S : SolveIvp) (u : ℕ → ℚ) (colors : List C) :
    List (Option (List State) × C) :=
  let _states_random := states_random u
  (states.zip colors).map (fun sc =>
    (ode_solution_points S lorenz_default sc.1 evol_time dt_default, sc.2))

/-- Unfolding lemma for `construct_curves`. -/
theorem construct_curves_eq {C : Type} (S : SolveIvp) (u : ℕ → ℚ)
    (colors : List C) :
    construct_curves S u colors = (states.zip colors).map (fun sc =>
      (ode_solution_points S lorenz_default sc.1 evol_time dt_default, sc.2)) := rfl

/-- The clustered policy produces `n_points` states. -/
theorem states_length : states.length = n_points := by
  unfold states
  rw [List.length_map, List.length_range]

/-- Claim C10: the scene computes trajectories only from the clustered
states — one sampler invocation per clustered state, in generation order,
each paired with its color by index (the zipWith form) — and the result
does not depend on the random stream: the randomized states are generated
but never consumed. -/
theorem C10_curves_from_clustered_only {C : Type} (S : SolveIvp)
    (u u' : ℕ → ℚ) (colors : List C) (hc : colors.length = n_points) :
    construct_curves S u colors = construct_curves S u' colors ∧
    construct_curves S u colors =
      List.zipWith (fun s c =>
        (ode_solution_points S lorenz_default s evol_time dt_default, c)) states colors ∧
    (construct_curves S u colors).length = n_points := by
  refine ⟨rfl, ?_, ?_⟩
  · rw [construct_curves_eq, List.zip, List.map_zipWith]
  · rw [construct_curves_eq, List.length_map, List.length_zip, states_length, hc,
      min_self]

/-- The constant-zero unit-draw stream, a second concrete random stream. -/
def zeroSeq : ℕ → ℚ := fun _ => 0

/-- A concrete six-element color list standing in for the gradient. -/
def sixColors : List ℕ := [0, 1, 2, 3, 4, 5]

/-- Witness for C10_curves_from_clustered_only: with two different concrete
random streams the computed curves coincide, and six curves are produced. -/
theorem C10_curves_witness :
    construct_curves (exactSolve constSol) halfSeq sixColors =
      construct_curves (exactSolve constSol) zeroSeq sixColors ∧
    (construct_curves (exactSolve constSol) halfSeq sixColors).length = n_points := by
  have h := C10_curves_from_clustered_only (exactSolve constSol) halfSeq zeroSeq
    sixColors rfl
  exact ⟨h.1, h.2.2⟩
